import Mathlib

/-!
Shallow embedding of `dataCompare.py` (row-match variant of the data-compare
tool).  Tables model pandas DataFrames with string-rendered cells; file
parsing and file writing are abstracted by environment functions, while the
dispatch logic, regex validation, extraction, comparison and driver control
flow are translated from the source.
-/

namespace DataCompare

/-- A pandas DataFrame with string-rendered cells: ordered column labels and
rows of cells. -/
structure Table where
  cols : List String
  rows : List (List String)
deriving DecidableEq, Repr

/-- Model of `pd.DataFrame()`: the empty frame returned by `load_data` on failure. -/
def emptyTable : Table := ⟨[], []⟩

/-- Model of `df.empty`: true when any axis has length 0. -/
def Table.isEmpty (t : Table) : Bool := t.rows.isEmpty || t.cols.isEmpty

/-- Every row has exactly one cell per column (pandas invariant). -/
def Table.wf (t : Table) : Prop := ∀ r ∈ t.rows, r.length = t.cols.length

instance (t : Table) : Decidable t.wf := by
  unfold Table.wf; infer_instance

/-- Python `\s` (ASCII fragment): the whitespace class used by `str.strip`
and the regex classes `\s` / `[^\s]`. -/
def isPySpace (c : Char) : Bool :=
  c = ' ' || c = '\t' || c = '\n' || c = '\r' || c = '\x0b' || c = '\x0c'

/-- Model of `str.strip()` on the character list. -/
def pyStripChars (l : List Char) : List Char :=
  ((l.dropWhile isPySpace).reverse.dropWhile isPySpace).reverse

/-- Model of `str.strip()`. -/
def pyStrip (s : String) : String := ⟨pyStripChars s.data⟩

/-- Model of `str.lower()` (ASCII). -/
def pyLower (s : String) : String := ⟨s.data.map Char.toLower⟩

/-- Split a character list on a separator character (model of the dot
structure the anchored regexes impose). -/
def splitOnChar (sep : Char) : List Char → List (List Char)
  | [] => [[]]
  | c :: cs =>
    let r := splitOnChar sep cs
    if c = sep then [] :: r
    else
      match r with
      | [] => [[c]]
      | g :: gs => (c :: g) :: gs

def isDigitCh (c : Char) : Bool := '0' ≤ c && c ≤ '9'

def isAlphaCh (c : Char) : Bool :=
  ('a' ≤ c && c ≤ 'z') || ('A' ≤ c && c ≤ 'Z')

def isAlnumHyphen (c : Char) : Bool := isAlphaCh c || isDigitCh c || c = '-'

/-- One `[0-9]{1,3}` group of the ip pattern. -/
def ipGroup (g : List Char) : Bool :=
  decide (1 ≤ g.length) && decide (g.length ≤ 3) && g.all isDigitCh

/-- Full match of `^(?:[0-9]{1,3}\.){3}[0-9]{1,3}$` (REGEX_PATTERNS["ip"]):
exactly four dot-separated groups of 1-3 digits. -/
def ipCore (s : String) : Bool :=
  let parts := splitOnChar '.' s.data
  decide (parts.length = 4) && parts.all ipGroup

/-- Full match of `^(?:[a-zA-Z0-9-]+\.)+[a-zA-Z]{2,}$`
(REGEX_PATTERNS["domain"]): one or more nonempty alnum-hyphen labels each
followed by a dot, then a final label of at least two letters. -/
def domainCore (s : String) : Bool :=
  let parts := splitOnChar '.' s.data
  decide (2 ≤ parts.length) &&
    parts.dropLast.all (fun g => !g.isEmpty && g.all isAlnumHyphen) &&
    (let g := parts.getLastD []
     decide (2 ≤ g.length) && g.all isAlphaCh)

/-- The character class `[^\s/$.?#]` of the url pattern. -/
def urlFirstOk (c : Char) : Bool :=
  !isPySpace c && c ≠ '/' && c ≠ '$' && c ≠ '.' && c ≠ '?' && c ≠ '#'

/-- Strip the `(https?|ftp)://` scheme of the url pattern. -/
def stripScheme (l : List Char) : Option (List Char) :=
  if "https://".data.isPrefixOf l then some (l.drop 8)
  else if "http://".data.isPrefixOf l then some (l.drop 7)
  else if "ftp://".data.isPrefixOf l then some (l.drop 6)
  else none

/-- Full match of `^(https?|ftp)://[^\s/$.?#].[^\s]*$` (REGEX_PATTERNS["url"]):
scheme, one character outside `[\s/$.?#]`, one non-newline character (`.`),
then non-whitespace characters to the end. -/
def urlCore (s : String) : Bool :=
  match stripScheme s.data with
  | some (c1 :: c2 :: rest) =>
    urlFirstOk c1 && c2 ≠ '\n' && rest.all (fun c => !isPySpace c)
  | _ => false

/-- The keys of `REGEX_PATTERNS`. -/
def regexKeys : List String := ["ip", "domain", "url"]

/-- Select the full-match predicate of `REGEX_PATTERNS[key]`. -/
def corePattern (key : String) : String → Bool :=
  if key = "ip" then ipCore else if key = "domain" then domainCore else urlCore

/-- Model of `re.search` of the anchored pattern `(^core$)` on one cell, as used by
`Series.str.extract(f"({regex})")`: Python `$` also matches just before one
trailing newline, so a cell equal to the token plus one final `\n` still
yields the token.  Sound for the three patterns because none of them can
match text containing a newline. -/
def reSearchAnchored (core : String → Bool) (cell : String) : Option String :=
  if core cell then some cell
  else
    match cell.data.getLast? with
    | some '\n' =>
      let t : String := ⟨cell.data.dropLast⟩
      if core t then some t else none
    | _ => none

/-- Deduplicate keeping first occurrences (`Series.drop_duplicates`). -/
def dedupFirstAux (seen : List String) : List String → List String
  | [] => []
  | a :: l =>
    if a ∈ seen then dedupFirstAux seen l
    else a :: dedupFirstAux (a :: seen) l

/-- All cells of a table enumerated column by column, as the per-column loop
of `extract_valid_data` visits them. -/
def allCellsByColumn (t : Table) : List String :=
  ((List.range t.cols.length).map
    (fun j => t.rows.map (fun r => r.getD j ""))).flatten

/-- Model of `extract_valid_data(dataframe, key)`: reject an unrecognized key kind,
otherwise per column extract the first anchored-regex match of every cell,
drop the misses, strip, and deduplicate. -/
def extract_valid_data (df : Table) (key : String) :
    Except String (List String) :=
  if pyLower key ∈ regexKeys then
    .ok (dedupFirstAux []
      (((allCellsByColumn df).filterMap
        (reSearchAnchored (corePattern (pyLower key)))).map pyStrip))
  else
    .error ("Unsupported key: " ++ key)

/-- Outcome of handing a file to the underlying parsing library
(`pd.read_csv`, `pd.read_excel`, line reading, `pd.read_json`): either a
parsed frame or a raised exception's message. -/
inductive ParseResult where
  | ok (t : Table)
  | err (msg : String)

/-- Model of `os.path.splitext(p)[1]`: the extension of the final path component,
i.e. the suffix from its last dot, provided a non-dot character of the
component precedes that dot. -/
def splitextExt (p : String) : String :=
  let base := (splitOnChar '/' p.data).getLastD []
  let good := fun i => (base.getD i ' ' == '.') &&
    ((List.range i).any (fun j => !(base.getD j ' ' == '.')))
  match ((List.range base.length).filter good).getLast? with
  | some i => ⟨base.drop i⟩
  | none => ""

/-- The extensions `load_data` dispatches on. -/
def loadExts : List String := [".csv", ".xls", ".xlsx", ".txt", ".json"]

/-- The body of `load_data`'s `try`: dispatch on the lowercased extension,
raising on an unrecognized one; `fs` supplies the parsing library's outcome
at the path. -/
def load_data_result (filePath : String) (fs : String → ParseResult) :
    Except String Table :=
  let ext := pyLower (splitextExt filePath)
  if ext ∈ loadExts then
    match fs filePath with
    | .ok t => .ok t
    | .err m => .error m
  else .error ("Unsupported file type: " ++ ext)

/-- Model of `load_data(file_path)`: any failure of the `try` body is swallowed and
an empty frame is returned. -/
def load_data (filePath : String) (fs : String → ParseResult) : Table :=
  match load_data_result filePath fs with
  | .ok t => t
  | .error _ => emptyTable

/-- The console line `load_data` prints when the `try` body fails. -/
def load_data_log (filePath : String) (fs : String → ParseResult) :
    List String :=
  match load_data_result filePath fs with
  | .ok _ => []
  | .error m => ["[ERROR] Could not load file " ++ filePath ++ ": " ++ m]

/-- Loop body accumulator of `extract_values_from_target`. -/
def extractTargetGo (fs : String → ParseResult) (key : String) :
    List String → Finset String → Except String (Finset String)
  | [], acc => .ok acc
  | f :: rest, acc =>
    let td := load_data f fs
    if td.isEmpty then extractTargetGo fs key rest acc
    else
      match extract_valid_data td key with
      | .error e => .error e
      | .ok vals =>
        if vals.isEmpty then extractTargetGo fs key rest acc
        else extractTargetGo fs key rest (acc ∪ vals.toFinset)

/-- Model of `extract_values_from_target(folder_path, key)`: load every folder file,
extract the valid values of the nonempty ones, and accumulate them in a
set; an unsupported key raises out of the loop. -/
def extract_values_from_target (folderFiles : List String)
    (fs : String → ParseResult) (key : String) :
    Except String (Finset String) :=
  extractTargetGo fs key folderFiles ∅

/-- Model of `str(bool)` as pandas renders the Match flags. -/
def pyBoolStr (b : Bool) : String := if b then "True" else "False"

/-- The row predicate of `compare_with_origin`:
`any(str(val).strip() in target_values for val in row.astype(str))`. -/
def rowMatched (tv : Finset String) (row : List String) : Bool :=
  row.any (fun c => decide (pyStrip c ∈ tv))

/-- Index of a column label (`df.columns.get_loc`): first occurrence. -/
def colIdx (cols : List String) (name : String) : Nat :=
  cols.findIdx (fun c => c = name)

/-- Model of `df[name] = vals`: overwrite an existing column in place, else append
a new column at the end. -/
def setColumn (t : Table) (name : String) (vals : List String) : Table :=
  if name ∈ t.cols then
    { cols := t.cols,
      rows := t.rows.zipWith (fun r v => r.set (colIdx t.cols name) v) vals }
  else
    { cols := t.cols ++ [name],
      rows := t.rows.zipWith (fun r v => r ++ [v]) vals }

/-- Model of `df.drop(columns=[name])`. -/
def dropColumn (t : Table) (name : String) : Table :=
  let i := colIdx t.cols name
  { cols := t.cols.eraseIdx i, rows := t.rows.map (fun r => r.eraseIdx i) }

/-- Lines 96-101 of the source: assign the Match column from the row
predicate, select the matching rows, and select the non-matching rows with
the Match column dropped.  Returns (non-matching, matching). -/
def compare_core (origin : Table) (tv : Finset String) : Table × Table :=
  let od := setColumn origin "Match"
    ((origin.rows.map (rowMatched tv)).map pyBoolStr)
  let mi := colIdx od.cols "Match"
  let matching : Table :=
    { cols := od.cols,
      rows := od.rows.filter (fun r => r.getD mi "" == pyBoolStr true) }
  let nonMatching : Table :=
    dropColumn
      { cols := od.cols,
        rows := od.rows.filter (fun r => !(r.getD mi "" == pyBoolStr true)) }
      "Match"
  (nonMatching, matching)

/-- Model of `compare_with_origin(origin_file, target_values, key)`: load the origin,
raise when it could not be loaded or is empty, else run the comparison. -/
def compare_with_origin (originFile : String) (fs : String → ParseResult)
    (tv : Finset String) : Except String (Table × Table) :=
  let od := load_data originFile fs
  if od.isEmpty then
    .error "[ERROR] Origin file could not be loaded or is empty."
  else .ok (compare_core od tv)

/-- The extensions `save_output` dispatches on. -/
def saveExts : List String := [".csv", ".xls", ".xlsx", ".txt", ".json"]

/-- The body of `save_output`'s `try`: dispatch on the lowercased output
extension, raising on an unrecognized one; `io` reports the underlying
write failure at the path, if any. -/
def save_output_result (outputPath : String) (io : String → Option String) :
    Except String Unit :=
  let ext := pyLower (splitextExt outputPath)
  if ext ∈ saveExts then
    match io outputPath with
    | none => .ok ()
    | some m => .error m
  else .error ("Unsupported output file format: " ++ ext)

/-- Model of `save_output(dataframe, output_path)`: the try body's failure is caught
and logged; the function always returns, yielding its console line. -/
def save_output (df : Table) (outputPath : String)
    (io : String → Option String) : List String :=
  match save_output_result outputPath io with
  | .ok _ => ["[INFO] Output saved to " ++ outputPath]
  | .error m =>
    ["[ERROR] Could not save output to " ++ outputPath ++ ": " ++ m]

/-- The post-parse command line (`argparse` result). -/
structure Args where
  pathOrigin : String
  pathTarget : String
  output : String
  key : String

/-- The file-system facts `main` consults. -/
structure Env where
  originIsFile : Bool
  targetIsDir : Bool
  folderFiles : List String
  fs : String → ParseResult
  io : String → Option String

/-- Observable driver events: console errors and infos, Writer invocation,
and creation of an output file. -/
inductive Event where
  | err (msg : String)
  | inf (msg : String)
  | save (t : Table) (path : String)
  | wrote (path : String)
deriving DecidableEq

/-- Model of `main()` after argument parsing: path validation, the guarded pipeline,
the empty-result skip, and the `except ValueError` handler. -/
def main (a : Args) (env : Env) : List Event :=
  if !env.originIsFile then [.err "The origin file path is invalid."]
  else if !env.targetIsDir then [.err "The target folder path is invalid."]
  else
    match extract_values_from_target env.folderFiles env.fs a.key with
    | .error e => [.err e]
    | .ok tv =>
      match compare_with_origin a.pathOrigin env.fs tv with
      | .error e => [.err e]
      | .ok (nm, _m) =>
        if nm.isEmpty then
          [.inf "No non-matching data found. Output file will be empty."]
        else
          .save nm a.output ::
            match save_output_result a.output env.io with
            | .ok _ =>
              [.wrote a.output, .inf ("Output saved to " ++ a.output)]
            | .error m =>
              [.err ("Could not save output to " ++ a.output ++ ": " ++ m)]

/-! ### Lemmas about the extractor -/

theorem splitOnChar_ne_nil (sep : Char) (l : List Char) :
    splitOnChar sep l ≠ [] := by
  induction l with
  | nil => simp [splitOnChar]
  | cons c cs ih =>
    simp only [splitOnChar]
    split
    · simp
    · cases h : splitOnChar sep cs with
      | nil => exact absurd h ih
      | cons g gs => simp [h]

theorem splitOnChar_mem (sep : Char) {x : Char} {l : List Char}
    (hx : x ∈ l) :
    x = sep ∨ ∃ g ∈ splitOnChar sep l, x ∈ g := by
  induction l with
  | nil => cases hx
  | cons c cs ih =>
    rcases List.mem_cons.mp hx with rfl | hcs
    · by_cases hc : x = sep
      · exact Or.inl hc
      · right
        simp only [splitOnChar, if_neg hc]
        cases h : splitOnChar sep cs with
        | nil => exact absurd h (splitOnChar_ne_nil sep cs)
        | cons g gs => exact ⟨x :: g, by simp, by simp⟩
    · rcases ih hcs with h | ⟨g, hg, hxg⟩
      · exact Or.inl h
      · right
        simp only [splitOnChar]
        split
        · exact ⟨g, by simp [hg], hxg⟩
        · cases h : splitOnChar sep cs with
          | nil => exact absurd h (splitOnChar_ne_nil sep cs)
          | cons g0 gs =>
            rw [h] at hg
            rcases List.mem_cons.mp hg with rfl | hgs
            · exact ⟨c :: g, by simp [h], by simp [hxg]⟩
            · exact ⟨g, by simp [h, hgs], hxg⟩

theorem mem_dropLast_or_getLastD {α : Type} {x : α} {l : List α} (d : α)
    (h : x ∈ l) : x ∈ l.dropLast ∨ x = l.getLastD d := by
  induction l with
  | nil => cases h
  | cons c cs ih =>
    cases cs with
    | nil => simp_all
    | cons c2 cs2 =>
      rcases List.mem_cons.mp h with rfl | h2
      · left; simp
      · rcases ih h2 with h3 | h3
        · left; rw [List.dropLast_cons_of_ne_nil (by simp)]
          exact List.mem_cons_of_mem _ h3
        · right; simpa using h3

/-- Every character of an ip-accepted string is a digit or a dot. -/
theorem ipCore_chars {s : String} (h : ipCore s = true) :
    ∀ c ∈ s.data, isDigitCh c = true ∨ c = '.' := by
  intro c hc
  rcases splitOnChar_mem '.' hc with h1 | ⟨g, hg, hcg⟩
  · exact Or.inr h1
  · left
    unfold ipCore at h
    simp only [Bool.and_eq_true, List.all_eq_true] at h
    have hgrp := h.2 g hg
    unfold ipGroup at hgrp
    simp only [Bool.and_eq_true, List.all_eq_true] at hgrp
    exact hgrp.2 c hcg

/-- Every character of a domain-accepted string is alphanumeric-hyphen or
a dot. -/
theorem domainCore_chars {s : String} (h : domainCore s = true) :
    ∀ c ∈ s.data, isAlnumHyphen c = true ∨ c = '.' := by
  intro c hc
  rcases splitOnChar_mem '.' hc with h1 | ⟨g, hg, hcg⟩
  · exact Or.inr h1
  · left
    unfold domainCore at h
    simp only [Bool.and_eq_true, List.all_eq_true] at h
    rcases mem_dropLast_or_getLastD [] hg with h2 | rfl
    · exact (h.1.2 g h2).2 c hcg
    · have halpha := h.2.2 c hcg
      unfold isAlnumHyphen
      simp [halpha]

theorem stripScheme_eq {l r : List Char} (h : stripScheme l = some r) :
    ∃ pre ∈ [("https://").data, ("http://").data, ("ftp://").data],
      l = pre ++ r := by
  unfold stripScheme at h
  split at h
  case isTrue hp =>
    obtain ⟨t, ht⟩ := List.isPrefixOf_iff_prefix.mp hp
    refine ⟨("https://").data, by simp, ?_⟩
    obtain rfl := Option.some.inj h
    rw [← ht]
    have : ("https://").data.length = 8 := by decide
    rw [← this, List.drop_left]
  case isFalse =>
    split at h
    case isTrue hp =>
      obtain ⟨t, ht⟩ := List.isPrefixOf_iff_prefix.mp hp
      refine ⟨("http://").data, by simp, ?_⟩
      obtain rfl := Option.some.inj h
      rw [← ht]
      have : ("http://").data.length = 7 := by decide
      rw [← this, List.drop_left]
    case isFalse =>
      split at h
      case isTrue hp =>
        obtain ⟨t, ht⟩ := List.isPrefixOf_iff_prefix.mp hp
        refine ⟨("ftp://").data, by simp, ?_⟩
        obtain rfl := Option.some.inj h
        rw [← ht]
        have : ("ftp://").data.length = 6 := by decide
        rw [← this, List.drop_left]
      case isFalse => cases h

theorem ipCore_no_newline {s : String} (h : ipCore s = true) :
    '\n' ∉ s.data := by
  intro hmem
  rcases ipCore_chars h '\n' hmem with h1 | h1 <;> simp_all [isDigitCh]

theorem domainCore_no_newline {s : String} (h : domainCore s = true) :
    '\n' ∉ s.data := by
  intro hmem
  rcases domainCore_chars h '\n' hmem with h1 | h1 <;>
    simp_all [isAlnumHyphen, isAlphaCh, isDigitCh]

theorem urlCore_no_newline {s : String} (h : urlCore s = true) :
    '\n' ∉ s.data := by
  intro hmem
  unfold urlCore at h
  split at h
  case h_1 c1 c2 rest heq =>
    simp only [Bool.and_eq_true, List.all_eq_true] at h
    obtain ⟨pre, hpre, hl⟩ := stripScheme_eq heq
    rw [hl] at hmem
    rcases List.mem_append.mp hmem with hp | hc
    · fin_cases hpre <;> simp_all
    · rcases List.mem_cons.mp hc with rfl | hc2
      · have := h.1.1
        unfold urlFirstOk at this
        simp [isPySpace] at this
      · rcases List.mem_cons.mp hc2 with rfl | hc3
        · have := h.1.2
          simp at this
        · have := h.2 _ hc3
          simp [isPySpace] at this
  case h_2 => cases h

theorem corePattern_no_newline {key s : String} (hk : key ∈ regexKeys)
    (h : corePattern key s = true) : '\n' ∉ s.data := by
  unfold regexKeys at hk
  rcases List.mem_cons.mp hk with rfl | hk2
  · exact ipCore_no_newline (by simpa [corePattern] using h)
  · rcases List.mem_cons.mp hk2 with rfl | hk3
    · exact domainCore_no_newline (by simpa [corePattern] using h)
    · rcases List.mem_cons.mp hk3 with rfl | hk4
      · exact urlCore_no_newline (by simpa [corePattern] using h)
      · cases hk4

theorem corePattern_append_newline {key v : String} (hk : key ∈ regexKeys)
    (hv : corePattern key v = true) :
    corePattern key (v ++ "\n") = false := by
  by_contra hcontra
  have htrue : corePattern key (v ++ "\n") = true := by
    cases h : corePattern key (v ++ "\n") <;> simp_all
  have := corePattern_no_newline hk htrue
  apply this
  rw [String.data_append]
  exact List.mem_append_right _ (by decide)

theorem reSearchAnchored_of_core {core : String → Bool} {v : String}
    (hcv : core v = true) : reSearchAnchored core v = some v := by
  unfold reSearchAnchored
  rw [if_pos hcv]

theorem reSearchAnchored_newline {core : String → Bool} {v : String}
    (hcv : core v = true) (hnl : core (v ++ "\n") = false) :
    reSearchAnchored core (v ++ "\n") = some v := by
  unfold reSearchAnchored
  rw [if_neg (by simp [hnl])]
  have hdata : (v ++ "\n").data = v.data ++ ['\n'] := by
    rw [String.data_append]
  rw [hdata]
  rw [List.getLast?_concat]
  simp only [List.dropLast_concat]
  have : (⟨v.data⟩ : String) = v := rfl
  rw [this, if_pos hcv]

theorem count_dedupFirstAux (a : String) (l : List String) :
    ∀ seen : List String,
      (dedupFirstAux seen l).count a =
        if a ∈ l ∧ a ∉ seen then 1 else 0 := by
  induction l with
  | nil => intro seen; simp [dedupFirstAux]
  | cons b l ih =>
    intro seen
    by_cases hb : b ∈ seen
    · rw [dedupFirstAux, if_pos hb, ih seen]
      by_cases hab : a = b
      · subst hab; simp [hb]
      · simp [List.mem_cons, hab]
    · rw [dedupFirstAux, if_neg hb]
      rw [List.count_cons, ih (b :: seen)]
      by_cases hab : a = b
      · subst hab
        simp [hb, List.mem_cons]
      · simp [List.mem_cons, hab, Ne.symm hab]

/-! ### Claims about the extractor -/

/-- C2 (counterexample): "10.0.0.1" is accepted by the ip regex, yet when it
sits in a cell surrounded by spaces the extractor returns nothing at all —
the anchored pattern `^...$` never matches inside the whitespace-padded cell,
so the value is not "extracted trimmed". -/
theorem extract_whitespace_cex :
    ipCore "10.0.0.1" = true ∧
    (" 10.0.0.1 " : String) = " " ++ "10.0.0.1" ++ " " ∧
    extract_valid_data ⟨["Data"], [[" 10.0.0.1 "]]⟩ "ip" = Except.ok [] := by
  exact ⟨by decide, rfl, rfl⟩

/-- C2 (amended): a regex-accepted value is extracted, stripped, exactly
once across all cells of the table, provided the cell content is exactly
the value, or the value followed by a single trailing newline (the one
whitespace placement Python's `$` anchor tolerates). -/
theorem extract_trimmed_unique (key v : String) (df : Table)
    (hk : pyLower key ∈ regexKeys)
    (hv : corePattern (pyLower key) v = true)
    (hc : ∃ cell ∈ allCellsByColumn df, cell = v ∨ cell = v ++ "\n") :
    ∃ out, extract_valid_data df key = Except.ok out ∧
      out.count (pyStrip v) = 1 := by
  have hkey : extract_valid_data df key = .ok (dedupFirstAux []
      (((allCellsByColumn df).filterMap
        (reSearchAnchored (corePattern (pyLower key)))).map pyStrip)) := by
    unfold extract_valid_data
    rw [if_pos hk]
  refine ⟨_, hkey, ?_⟩
  rw [count_dedupFirstAux]
  rw [if_pos]
  refine ⟨?_, by simp⟩
  obtain ⟨cell, hcell, hcv⟩ := hc
  apply List.mem_map_of_mem
  apply List.mem_filterMap.mpr
  refine ⟨cell, hcell, ?_⟩
  rcases hcv with rfl | rfl
  · exact reSearchAnchored_of_core hv
  · exact reSearchAnchored_newline hv (corePattern_append_newline hk hv)

/-- C2 witness: key "IP" (mixed case), value "10.0.0.1" present in two cells
(one with a trailing newline) is extracted exactly once. -/
theorem extract_trimmed_unique_witness :
    pyLower "IP" ∈ regexKeys ∧
    corePattern (pyLower "IP") "10.0.0.1" = true ∧
    ∃ out, extract_valid_data
        ⟨["A", "B"], [["x", "10.0.0.1"], ["10.0.0.1\n", "y"]]⟩ "IP" =
        Except.ok out ∧
      out.count (pyStrip "10.0.0.1") = 1 :=
  ⟨by decide, by decide,
    extract_trimmed_unique "IP" "10.0.0.1"
      ⟨["A", "B"], [["x", "10.0.0.1"], ["10.0.0.1\n", "y"]]⟩
      (by decide) (by decide) (by decide)⟩

/-- C4: `extract_valid_data` rejects a key whose lowercase form is not one
of ip, domain, url with a ValueError naming the key, and succeeds (never
raises this error) for the three recognized kinds in any letter case. -/
theorem extract_key_validation (df : Table) (key : String) :
    (pyLower key ∉ regexKeys →
      extract_valid_data df key =
        Except.error ("Unsupported key: " ++ key)) ∧
    (pyLower key ∈ regexKeys →
      ∃ out, extract_valid_data df key = Except.ok out) := by
  constructor
  · intro h
    unfold extract_valid_data
    rw [if_neg h]
  · intro h
    unfold extract_valid_data
    rw [if_pos h]
    exact ⟨_, rfl⟩

/-- C4 witness: key "mac" is rejected with the error naming it; key "URL"
in upper case is accepted. -/
theorem extract_key_validation_witness :
    (pyLower "mac" ∉ regexKeys ∧
      extract_valid_data ⟨["A"], [["x"]]⟩ "mac" =
        Except.error ("Unsupported key: " ++ "mac")) ∧
    (pyLower "URL" ∈ regexKeys ∧
      ∃ out, extract_valid_data ⟨["A"], [["x"]]⟩ "URL" = Except.ok out) :=
  ⟨⟨by decide, (extract_key_validation ⟨["A"], [["x"]]⟩ "mac").1 (by decide)⟩,
   ⟨by decide, (extract_key_validation ⟨["A"], [["x"]]⟩ "URL").2 (by decide)⟩⟩

/-! ### Lemmas about the comparator -/

theorem zipWith_map_map {α β γ δ : Type} (f : α → γ → δ) (g : α → β)
    (h : β → γ) (l : List α) :
    List.zipWith f l ((l.map g).map h) = l.map (fun a => f a (h (g a))) := by
  induction l with
  | nil => rfl
  | cons a l ih => simp only [List.map_cons, List.zipWith_cons_cons, ih]

theorem getD_concat {α : Type} (l : List α) (a d : α) :
    (l ++ [a]).getD l.length d = a := by
  induction l with
  | nil => rfl
  | cons b l ih => simp [ih]

theorem eraseIdx_concat {α : Type} (l : List α) (a : α) :
    (l ++ [a]).eraseIdx l.length = l := by
  induction l with
  | nil => rfl
  | cons b l ih => simpa [List.eraseIdx] using ih

theorem getD_set_self {α : Type} (l : List α) (i : Nat) (a d : α)
    (h : i < l.length) : (l.set i a).getD i d = a := by
  induction l generalizing i with
  | nil => cases h
  | cons b l ih =>
    cases i with
    | zero => rfl
    | succ j => simpa using ih j (by simpa using h)

theorem eraseIdx_set_self {α : Type} (l : List α) (i : Nat) (a : α) :
    (l.set i a).eraseIdx i = l.eraseIdx i := by
  induction l generalizing i with
  | nil => rfl
  | cons b l ih =>
    cases i with
    | zero => rfl
    | succ j => simpa [List.eraseIdx] using ih j

theorem colIdx_append_self {cols : List String} {name : String}
    (h : name ∉ cols) : colIdx (cols ++ [name]) name = cols.length := by
  induction cols with
  | nil => simp [colIdx, List.findIdx_cons]
  | cons c cs ih =>
    have hc : ¬(c = name) := fun hh => h (hh ▸ List.mem_cons_self c cs)
    have hcs : name ∉ cs := fun hh => h (List.mem_cons_of_mem c hh)
    simp only [colIdx, List.cons_append, List.findIdx_cons] at *
    simp [hc, ih hcs]

theorem colIdx_lt_of_mem {cols : List String} {name : String}
    (h : name ∈ cols) : colIdx cols name < cols.length := by
  induction cols with
  | nil => cases h
  | cons c cs ih =>
    by_cases hc : c = name
    · simp [colIdx, List.findIdx_cons, hc]
    · rcases List.mem_cons.mp h with rfl | h2
      · exact absurd rfl hc
      · simp only [colIdx, List.findIdx_cons] at *
        simpa [hc] using ih h2

theorem filter_map_comm {α β : Type} (f : α → β) (p : β → Bool)
    (l : List α) :
    (l.map f).filter p = (l.filter (fun a => p (f a))).map f := by
  induction l with
  | nil => rfl
  | cons a l ih =>
    by_cases h : p (f a) <;> simp [List.filter_cons, h, ih]

theorem pyBoolStr_beq (b : Bool) :
    (pyBoolStr b == pyBoolStr true) = b := by
  cases b <;> rfl

/-- Behavior of `compare_core` when the origin has no "Match" column: the flag column is
appended, the two selections split the rows by the row predicate, and the
drop removes exactly the appended flag. -/
theorem compare_core_fresh (cols : List String) (rows : List (List String))
    (tv : Finset String) (hwf : ∀ r ∈ rows, r.length = cols.length)
    (hM : "Match" ∉ cols) :
    compare_core ⟨cols, rows⟩ tv =
      (⟨cols, rows.filter (fun r => !rowMatched tv r)⟩,
       ⟨cols ++ ["Match"],
        (rows.filter (rowMatched tv)).map
          (fun r => r ++ [pyBoolStr true])⟩) := by
  unfold compare_core setColumn
  rw [if_neg hM]
  dsimp only
  rw [zipWith_map_map (fun r v => r ++ [v]) (rowMatched tv) pyBoolStr rows]
  have hmi : colIdx (cols ++ ["Match"]) "Match" = cols.length :=
    colIdx_append_self hM
  simp only [hmi]
  rw [filter_map_comm, filter_map_comm]
  have hpt : ∀ r ∈ rows,
      (((r ++ [pyBoolStr (rowMatched tv r)]).getD cols.length ""
        == pyBoolStr true)) = rowMatched tv r := by
    intro r hr
    rw [← hwf r hr, getD_concat, pyBoolStr_beq]
  rw [Prod.mk.injEq]
  refine ⟨?_, ?_⟩
  · unfold dropColumn
    dsimp only
    rw [Table.mk.injEq]
    refine ⟨?_, ?_⟩
    · rw [hmi, eraseIdx_concat]
    · rw [hmi, List.map_map]
      rw [List.filter_congr (fun r hr => by rw [hpt r hr])]
      have : ∀ r ∈ rows.filter (fun r => !rowMatched tv r),
          ((fun r => r.eraseIdx cols.length) ∘
            (fun a => a ++ [pyBoolStr (rowMatched tv a)])) r = r := by
        intro r hr
        have hrr := (List.mem_filter.mp hr).1
        simp only [Function.comp_apply]
        rw [← hwf r hrr, eraseIdx_concat]
      rw [List.map_congr_left this]
      exact List.map_id _
  · rw [Table.mk.injEq]
    refine ⟨rfl, ?_⟩
    rw [List.filter_congr (fun r hr => by rw [hpt r hr])]
    apply List.map_congr_left
    intro r hr
    have hb := (List.mem_filter.mp hr).2
    simp only at hb
    rw [hb]

/-- Behavior of `compare_core` when the origin already has a "Match" column: the flags
overwrite that column in place and the drop then removes it, so each output
row is the original row minus its original "Match" cell. -/
theorem compare_core_existing (cols : List String)
    (rows : List (List String)) (tv : Finset String)
    (hwf : ∀ r ∈ rows, r.length = cols.length) (hM : "Match" ∈ cols) :
    (compare_core ⟨cols, rows⟩ tv).1 =
      ⟨cols.eraseIdx (colIdx cols "Match"),
       (rows.filter (fun r => !rowMatched tv r)).map
         (fun r => r.eraseIdx (colIdx cols "Match"))⟩ := by
  unfold compare_core setColumn
  rw [if_pos hM]
  dsimp only
  rw [zipWith_map_map (fun r v => r.set (colIdx cols "Match") v)
    (rowMatched tv) pyBoolStr rows]
  rw [filter_map_comm]
  have hpt : ∀ r ∈ rows,
      (((r.set (colIdx cols "Match")
          (pyBoolStr (rowMatched tv r))).getD (colIdx cols "Match") ""
        == pyBoolStr true)) = rowMatched tv r := by
    intro r hr
    rw [getD_set_self _ _ _ _ (by rw [hwf r hr]; exact colIdx_lt_of_mem hM),
      pyBoolStr_beq]
  unfold dropColumn
  dsimp only
  rw [Table.mk.injEq]
  refine ⟨rfl, ?_⟩
  rw [List.map_map]
  rw [List.filter_congr (fun r hr => by rw [hpt r hr])]
  apply List.map_congr_left
  intro r _
  simp only [Function.comp_apply]
  rw [eraseIdx_set_self]

/-! ### Claims about the comparator -/

/-- C1 (counterexample): for an origin table that already has a column named
"Match", the non-matching output does not preserve the origin's columns —
the row ["x"] is unmatched against the empty target set, yet the output is
not the original table, because the comparator overwrites and then drops the
"Match" column. -/
theorem nonmatching_rows_match_column_cex :
    rowMatched ∅ ["x"] = false ∧
    Table.wf ⟨["Match"], [["x"]]⟩ ∧
    (compare_core ⟨["Match"], [["x"]]⟩ ∅).1 ≠ ⟨["Match"], [["x"]]⟩ := by
  refine ⟨by decide, by decide, by decide⟩

/-- C1 (amended): for every well-formed origin table with no column named
"Match" and every target value set, a row is matched exactly when some cell
`c` has `pyStrip c ∈ tv` (the `rowMatched` predicate), the non-matching
output consists of exactly the rows where this predicate is false with the
origin's columns preserved and no added column, and the matching result
holds exactly the rows where it is true. -/
theorem nonmatching_rows_spec (origin : Table) (tv : Finset String)
    (hwf : origin.wf) (hM : "Match" ∉ origin.cols) :
    (compare_core origin tv).1 =
      ⟨origin.cols,
       origin.rows.filter
         (fun r => !(r.any (fun c => decide (pyStrip c ∈ tv))))⟩ ∧
    (compare_core origin tv).2.rows =
      (origin.rows.filter
         (fun r => r.any (fun c => decide (pyStrip c ∈ tv)))).map
        (fun r => r ++ [pyBoolStr true]) := by
  obtain ⟨cols, rows⟩ := origin
  have h := compare_core_fresh cols rows tv hwf hM
  rw [h]
  exact ⟨rfl, rfl⟩

/-- C1 witness: a two-column origin with one matching and one non-matching
row against the singleton target set. -/
theorem nonmatching_rows_spec_witness :
    Table.wf ⟨["A", "B"], [["10.0.0.5", "noise"], ["9.9.9.9", "x"]]⟩ ∧
    "Match" ∉ (⟨["A", "B"],
      [["10.0.0.5", "noise"], ["9.9.9.9", "x"]]⟩ : Table).cols ∧
    (compare_core ⟨["A", "B"], [["10.0.0.5", "noise"], ["9.9.9.9", "x"]]⟩
        {"10.0.0.5"}).1 =
      ⟨["A", "B"],
       (⟨["A", "B"], [["10.0.0.5", "noise"], ["9.9.9.9", "x"]]⟩ :
          Table).rows.filter
         (fun r => !(r.any
           (fun c => decide (pyStrip c ∈ ({"10.0.0.5"} : Finset String)))))⟩ :=
  ⟨by decide, by decide,
    (nonmatching_rows_spec
      ⟨["A", "B"], [["10.0.0.5", "noise"], ["9.9.9.9", "x"]]⟩
      {"10.0.0.5"} (by decide) (by decide)).1⟩

/-- C9: when the origin already contains a "Match" column the comparator
overwrites it with the internal flags and drops it, so every non-matching
output row is the original row with its original "Match" cell removed; when
no "Match" column exists, the non-matching rows are the original rows
unchanged. -/
theorem match_column_frame_effect (origin : Table) (tv : Finset String)
    (hwf : origin.wf) :
    ("Match" ∈ origin.cols →
      (compare_core origin tv).1 =
        ⟨origin.cols.eraseIdx (colIdx origin.cols "Match"),
         (origin.rows.filter (fun r => !rowMatched tv r)).map
           (fun r => r.eraseIdx (colIdx origin.cols "Match"))⟩) ∧
    ("Match" ∉ origin.cols →
      (compare_core origin tv).1 =
        ⟨origin.cols, origin.rows.filter (fun r => !rowMatched tv r)⟩) := by
  obtain ⟨cols, rows⟩ := origin
  constructor
  · intro hM
    exact compare_core_existing cols rows tv hwf hM
  · intro hM
    rw [compare_core_fresh cols rows tv hwf hM]

/-- C9 witness: an origin with columns ["A", "Match"] loses the original
"Match" data in the non-matching output. -/
theorem match_column_frame_effect_witness :
    Table.wf ⟨["A", "Match"], [["x", "orig"]]⟩ ∧
    "Match" ∈ (⟨["A", "Match"], [["x", "orig"]]⟩ : Table).cols ∧
    (compare_core ⟨["A", "Match"], [["x", "orig"]]⟩ ∅).1 =
      ⟨(⟨["A", "Match"], [["x", "orig"]]⟩ : Table).cols.eraseIdx
         (colIdx (⟨["A", "Match"], [["x", "orig"]]⟩ : Table).cols "Match"),
       ((⟨["A", "Match"], [["x", "orig"]]⟩ : Table).rows.filter
          (fun r => !rowMatched ∅ r)).map
         (fun r => r.eraseIdx
           (colIdx (⟨["A", "Match"], [["x", "orig"]]⟩ : Table).cols
             "Match"))⟩ :=
  ⟨by decide, by decide,
    (match_column_frame_effect ⟨["A", "Match"], [["x", "orig"]]⟩ ∅
      (by decide)).1 (by decide)⟩

/-! ### Claims about the loader and the writer -/

/-- C3: a path whose extension is not one of .csv, .xls, .xlsx, .txt, .json
(case-insensitive) makes the load body fail with the unsupported-type error
naming the extension, and every load failure is swallowed: `load_data`
returns the empty frame and logs the error instead of propagating. -/
theorem load_unsupported_swallow (p : String) (fs : String → ParseResult) :
    (pyLower (splitextExt p) ∉ loadExts →
      load_data_result p fs =
        Except.error ("Unsupported file type: " ++ pyLower (splitextExt p))) ∧
    (∀ m, load_data_result p fs = Except.error m →
      load_data p fs = emptyTable ∧
      load_data_log p fs =
        ["[ERROR] Could not load file " ++ p ++ ": " ++ m]) := by
  constructor
  · intro h
    unfold load_data_result
    rw [if_neg h]
  · intro m hm
    unfold load_data load_data_log
    rw [hm]
    exact ⟨rfl, rfl⟩

/-- C3 witness: loading "report.pdf" fails with the unsupported-type error
and yields the empty frame. -/
theorem load_unsupported_swallow_witness :
    pyLower (splitextExt "report.pdf") ∉ loadExts ∧
    load_data_result "report.pdf" (fun _ => ParseResult.err "io") =
      Except.error
        ("Unsupported file type: " ++ pyLower (splitextExt "report.pdf")) ∧
    load_data "report.pdf" (fun _ => ParseResult.err "io") = emptyTable :=
  ⟨by decide,
   (load_unsupported_swallow "report.pdf" (fun _ => ParseResult.err "io")).1
     (by decide),
   ((load_unsupported_swallow "report.pdf"
       (fun _ => ParseResult.err "io")).2 _
     ((load_unsupported_swallow "report.pdf"
         (fun _ => ParseResult.err "io")).1 (by decide))).1⟩

/-- C5: the writer never propagates: an unsupported output extension fails
the save body with the unsupported-format error, any failure is logged with
path and cause, and `save_output` always returns one console line. -/
theorem save_never_propagates (df : Table) (p : String)
    (io : String → Option String) :
    (pyLower (splitextExt p) ∉ saveExts →
      save_output_result p io =
        Except.error
          ("Unsupported output file format: " ++ pyLower (splitextExt p))) ∧
    (∀ m, save_output_result p io = Except.error m →
      save_output df p io =
        ["[ERROR] Could not save output to " ++ p ++ ": " ++ m]) ∧
    (save_output df p io = ["[INFO] Output saved to " ++ p] ∨
      ∃ m, save_output df p io =
        ["[ERROR] Could not save output to " ++ p ++ ": " ++ m]) := by
  refine ⟨?_, ?_, ?_⟩
  · intro h
    unfold save_output_result
    rw [if_neg h]
  · intro m hm
    unfold save_output
    rw [hm]
  · cases h : save_output_result p io with
    | ok u =>
      left
      unfold save_output
      rw [h]
    | error m =>
      right
      exact ⟨m, by unfold save_output; rw [h]⟩

/-- C5 witness: saving to "out.bin" fails with the unsupported-format error
yet `save_output` returns its single console line. -/
theorem save_never_propagates_witness :
    pyLower (splitextExt "out.bin") ∉ saveExts ∧
    save_output_result "out.bin" (fun _ => none) =
      Except.error
        ("Unsupported output file format: " ++ pyLower (splitextExt "out.bin")) ∧
    save_output emptyTable "out.bin" (fun _ => none) =
      ["[ERROR] Could not save output to " ++ "out.bin" ++ ": " ++
        ("Unsupported output file format: " ++ pyLower (splitextExt "out.bin"))] :=
  ⟨by decide,
   (save_never_propagates emptyTable "out.bin" (fun _ => none)).1 (by decide),
   (save_never_propagates emptyTable "out.bin" (fun _ => none)).2.1 _
     ((save_never_propagates emptyTable "out.bin" (fun _ => none)).1
       (by decide))⟩

/-! ### Lemmas about the target aggregation -/

theorem extract_valid_data_ok {key : String} (hk : pyLower key ∈ regexKeys)
    (df : Table) : ∃ out, extract_valid_data df key = Except.ok out := by
  unfold extract_valid_data
  rw [if_pos hk]
  exact ⟨_, rfl⟩

theorem extract_valid_data_err {key : String}
    (hk : pyLower key ∉ regexKeys) (df : Table) :
    extract_valid_data df key = Except.error ("Unsupported key: " ++ key) := by
  unfold extract_valid_data
  rw [if_neg hk]

/-- The value set one target file contributes. -/
def targetContrib (fs : String → ParseResult) (key : String) (f : String) :
    Finset String :=
  let td := load_data f fs
  if td.isEmpty then ∅
  else
    match extract_valid_data td key with
    | .ok vals => vals.toFinset
    | .error _ => ∅

theorem extractTargetGo_valid {fs : String → ParseResult} {key : String}
    (hk : pyLower key ∈ regexKeys) :
    ∀ (files : List String) (acc : Finset String),
      extractTargetGo fs key files acc =
        Except.ok (files.foldl (fun s f => s ∪ targetContrib fs key f) acc) := by
  intro files
  induction files with
  | nil => intro acc; rfl
  | cons f rest ih =>
    intro acc
    by_cases hemp : (load_data f fs).isEmpty
    · rw [extractTargetGo, if_pos hemp, ih]
      simp [targetContrib, hemp]
    · obtain ⟨out, hout⟩ := extract_valid_data_ok hk (load_data f fs)
      rw [extractTargetGo, if_neg hemp, hout]
      dsimp only
      by_cases hv : out.isEmpty
      · rw [if_pos hv, ih]
        have : out = [] := List.isEmpty_iff.mp hv
        subst this
        simp [targetContrib, hemp, hout]
      · rw [if_neg hv, ih]
        simp [targetContrib, hemp, hout]

theorem extractTargetGo_invalid {fs : String → ParseResult} {key : String}
    (hk : pyLower key ∉ regexKeys) :
    ∀ (files : List String) (acc : Finset String),
      extractTargetGo fs key files acc =
        if files.all (fun f => (load_data f fs).isEmpty) then Except.ok acc
        else Except.error ("Unsupported key: " ++ key) := by
  intro files
  induction files with
  | nil => intro acc; rfl
  | cons f rest ih =>
    intro acc
    by_cases hemp : (load_data f fs).isEmpty
    · rw [extractTargetGo, if_pos hemp, ih]
      simp [hemp]
    · rw [extractTargetGo, if_neg hemp,
        extract_valid_data_err hk (load_data f fs)]
      simp [hemp]

theorem foldl_union_perm {g : String → Finset String}
    {l1 l2 : List String} (h : l1.Perm l2) :
    ∀ acc : Finset String,
      l1.foldl (fun s f => s ∪ g f) acc = l2.foldl (fun s f => s ∪ g f) acc := by
  induction h with
  | nil => intro acc; rfl
  | cons x h ih => intro acc; simp only [List.foldl_cons]; exact ih _
  | swap x y l =>
    intro acc
    simp only [List.foldl_cons]
    rw [Finset.union_right_comm]
  | trans h1 h2 ih1 ih2 => intro acc; rw [ih1, ih2]

theorem all_perm {α : Type} (p : α → Bool) {l1 l2 : List α}
    (h : l1.Perm l2) : l1.all p = l2.all p := by
  cases h1 : l1.all p <;> cases h2 : l2.all p
  · rfl
  · rw [List.all_eq_true] at h2
    have h1' : ¬ ∀ x ∈ l1, p x = true := by
      intro hall
      rw [← List.all_eq_true] at hall
      rw [hall] at h1
      cases h1
    exact absurd (fun x hx => h2 x (h.mem_iff.mp hx)) h1'
  · rw [List.all_eq_true] at h1
    have h2' : ¬ ∀ x ∈ l2, p x = true := by
      intro hall
      rw [← List.all_eq_true] at hall
      rw [hall] at h2
      cases h2
    exact absurd (fun x hx => h1 x (h.mem_iff.mpr hx)) h2'
  · rfl

/-! ### Claim about the target aggregation -/

/-- C8: the aggregate target value set is invariant under the enumeration
order of the folder's files: any two permutations of the per-file
processing order yield the same result. -/
theorem target_set_perm_invariant (l1 l2 : List String)
    (fs : String → ParseResult) (key : String) (h : l1.Perm l2) :
    extract_values_from_target l1 fs key =
      extract_values_from_target l2 fs key := by
  unfold extract_values_from_target
  by_cases hk : pyLower key ∈ regexKeys
  · rw [extractTargetGo_valid hk l1 ∅, extractTargetGo_valid hk l2 ∅]
    rw [foldl_union_perm h ∅]
  · rw [extractTargetGo_invalid hk l1 ∅, extractTargetGo_invalid hk l2 ∅]
    rw [all_perm (fun f => (load_data f fs).isEmpty) h]

/-- C8 witness: two files in either order produce the same value set. -/
theorem target_set_perm_invariant_witness :
    (["a.txt", "b.txt"] : List String).Perm ["b.txt", "a.txt"] ∧
    extract_values_from_target ["a.txt", "b.txt"]
        (fun p => if p = "a.txt"
          then ParseResult.ok ⟨["Data"], [["10.0.0.1\n"]]⟩
          else ParseResult.ok ⟨["Data"], [["7.7.7.7\n"]]⟩) "ip" =
      extract_values_from_target ["b.txt", "a.txt"]
        (fun p => if p = "a.txt"
          then ParseResult.ok ⟨["Data"], [["10.0.0.1\n"]]⟩
          else ParseResult.ok ⟨["Data"], [["7.7.7.7\n"]]⟩) "ip" :=
  ⟨List.Perm.swap "b.txt" "a.txt" [],
   target_set_perm_invariant ["a.txt", "b.txt"] ["b.txt", "a.txt"] _ "ip"
     (List.Perm.swap "b.txt" "a.txt" [])⟩

/-! ### Claims about the driver -/

/-- C7: an invalid origin-file path or target-folder path makes the driver
report an error and halt: the whole trace is that single error event, so no
file is loaded, nothing is extracted or compared, and nothing is written. -/
theorem invalid_paths_halt (a : Args) (env : Env) :
    (env.originIsFile = false →
      main a env = [Event.err "The origin file path is invalid."]) ∧
    (env.originIsFile = true → env.targetIsDir = false →
      main a env = [Event.err "The target folder path is invalid."]) := by
  constructor
  · intro h
    unfold main
    rw [h]
    rfl
  · intro h1 h2
    unfold main
    rw [h1, h2]
    rfl

/-- C7 witness: a run whose origin path is not a file halts with the single
error event. -/
theorem invalid_paths_halt_witness :
    (⟨false, true, [], fun _ => ParseResult.err "x", fun _ => none⟩ :
        Env).originIsFile = false ∧
    main ⟨"o.csv", "t", "out.csv", "ip"⟩
        ⟨false, true, [], fun _ => ParseResult.err "x", fun _ => none⟩ =
      [Event.err "The origin file path is invalid."] :=
  ⟨rfl,
   (invalid_paths_halt ⟨"o.csv", "t", "out.csv", "ip"⟩
     ⟨false, true, [], fun _ => ParseResult.err "x", fun _ => none⟩).1 rfl⟩

/-- C6: when the computed non-matching table is empty the driver only
reports that the output would be empty — the writer is never invoked and no
file is created; when it is non-empty the writer is invoked on it. -/
theorem empty_result_skips_write (a : Args) (env : Env) (tv : Finset String)
    (nm m : Table)
    (h1 : env.originIsFile = true) (h2 : env.targetIsDir = true)
    (h3 : extract_values_from_target env.folderFiles env.fs a.key =
      Except.ok tv)
    (h4 : compare_with_origin a.pathOrigin env.fs tv = Except.ok (nm, m)) :
    (nm.isEmpty = true →
      main a env =
        [Event.inf "No non-matching data found. Output file will be empty."] ∧
      (∀ t p, Event.save t p ∉ main a env) ∧
      (∀ p, Event.wrote p ∉ main a env)) ∧
    (nm.isEmpty = false → Event.save nm a.output ∈ main a env) := by
  have hmain : main a env =
      (if nm.isEmpty then
        [Event.inf "No non-matching data found. Output file will be empty."]
      else
        Event.save nm a.output ::
          match save_output_result a.output env.io with
          | .ok _ => [Event.wrote a.output,
              Event.inf ("Output saved to " ++ a.output)]
          | .error m2 => [Event.err
              ("Could not save output to " ++ a.output ++ ": " ++ m2)]) := by
    unfold main
    rw [h1, h2, h3]
    dsimp only
    rw [h4]
    rfl
  constructor
  · intro hnm
    rw [hmain, if_pos hnm]
    refine ⟨rfl, ?_, ?_⟩
    · intro t p hp
      simp at hp
    · intro p hp
      simp at hp
  · intro hnm
    rw [hmain, if_neg (by simp [hnm])]
    exact List.mem_cons_self _ _

/-- C6 witness: an unmatched one-row origin against the empty target set
triggers the writer invocation on the non-matching table. -/
theorem empty_result_skips_write_witness :
    (⟨["Data"], [["10.0.0.1"]]⟩ : Table).isEmpty = false ∧
    Event.save ⟨["Data"], [["10.0.0.1"]]⟩ "out.csv" ∈
      main ⟨"o.csv", "t", "out.csv", "ip"⟩
        ⟨true, true, [],
         fun _ => ParseResult.ok ⟨["Data"], [["10.0.0.1"]]⟩,
         fun _ => none⟩ :=
  ⟨rfl,
   (empty_result_skips_write ⟨"o.csv", "t", "out.csv", "ip"⟩
     ⟨true, true, [],
      fun _ => ParseResult.ok ⟨["Data"], [["10.0.0.1"]]⟩,
      fun _ => none⟩ ∅
     ⟨["Data"], [["10.0.0.1"]]⟩ ⟨["Data", "Match"], []⟩
     rfl rfl rfl rfl).2 rfl⟩

/-- C10: an origin that fails to load for any reason (including an
unsupported extension) or loads to an empty frame makes the comparator
raise the single fatal ValueError, which the driver reports as its only
event — no output is written, and the two conditions are indistinguishable. -/
theorem origin_load_failure_fatal (a : Args) (env : Env) (tv : Finset String)
    (h1 : env.originIsFile = true) (h2 : env.targetIsDir = true)
    (h3 : extract_values_from_target env.folderFiles env.fs a.key =
      Except.ok tv)
    (h5 : (∃ msg, load_data_result a.pathOrigin env.fs = Except.error msg) ∨
      (load_data a.pathOrigin env.fs).rows = [] ∨
      (load_data a.pathOrigin env.fs).cols = []) :
    compare_with_origin a.pathOrigin env.fs tv =
      Except.error "[ERROR] Origin file could not be loaded or is empty." ∧
    main a env =
      [Event.err "[ERROR] Origin file could not be loaded or is empty."] := by
  have hemp : (load_data a.pathOrigin env.fs).isEmpty = true := by
    rcases h5 with ⟨msg, hmsg⟩ | h | h
    · unfold load_data
      rw [hmsg]
      rfl
    · unfold Table.isEmpty
      rw [h]
      rfl
    · unfold Table.isEmpty
      rw [h]
      simp
  have hc : compare_with_origin a.pathOrigin env.fs tv =
      Except.error "[ERROR] Origin file could not be loaded or is empty." := by
    unfold compare_with_origin
    dsimp only
    rw [hemp]
    rfl
  refine ⟨hc, ?_⟩
  unfold main
  rw [h1, h2, h3]
  dsimp only
  rw [hc]
  rfl

/-- C10 witness: an origin path with the unsupported extension ".bin" is
fatal: the driver's trace is the single fatal error event. -/
theorem origin_load_failure_fatal_witness :
    load_data_result "o.bin"
        (fun _ => ParseResult.ok ⟨["Data"], [["x"]]⟩) =
      Except.error
        ("Unsupported file type: " ++ pyLower (splitextExt "o.bin")) ∧
    main ⟨"o.bin", "t", "out.csv", "ip"⟩
        ⟨true, true, [],
         fun _ => ParseResult.ok ⟨["Data"], [["x"]]⟩, fun _ => none⟩ =
      [Event.err "[ERROR] Origin file could not be loaded or is empty."] :=
  ⟨rfl,
   (origin_load_failure_fatal ⟨"o.bin", "t", "out.csv", "ip"⟩
     ⟨true, true, [],
      fun _ => ParseResult.ok ⟨["Data"], [["x"]]⟩, fun _ => none⟩ ∅
     rfl rfl rfl
     (Or.inl ⟨"Unsupported file type: " ++ pyLower (splitextExt "o.bin"),
       rfl⟩)).2⟩

end DataCompare
